import Mathlib

/-!
Shallow embedding of the antibeaver-go core (latency tracker, buffering
decision engine, synthesis-prompt formatter, shared validators) and
verification of the specification's claims about it.

Modelling conventions:
* Go `int64` / `int` values are modelled as `Int` (or `Nat` where the source
  guarantees non-negativity, noted at each definition).
* Go strings are Lean `String`s; where Go compares or slices a string by
  bytes, the definitions work on `String.data` / an explicit UTF-8 byte list.
* `time.Time` instants are modelled as `Int` nanosecond counts; `t.After(u)`
  is `u < t`.
* Fallible Go functions returning `(T, error)` become `Except String T`
  (or a `(·, Option String)` pair where the source always returns `nil`).
-/

namespace AntiBeaver

/-! ### Decision engine (`synthesis.State`, `synthesis.ShouldBuffer`) -/

/-- Snapshot of the governance signals consumed by a buffering decision. -/
structure State where
  AvgLatency : Int
  MaxLatency : Int
  Threshold : Int
  ForcedBuffering : Bool
  SimulatedMs : Int
  Halted : Bool
deriving DecidableEq, Repr

/-- Result of a buffering decision. -/
structure BufferResult where
  Buffering : Bool
  Reason : String
  LatencyMs : Int
deriving DecidableEq, Repr

/-- Decision engine: `synthesis.ShouldBuffer`, a first-match-wins cascade of
halt, forced override, simulated latency, measured max latency. -/
def ShouldBuffer (state : State) : BufferResult :=
  if state.Halted then
    { Buffering := true, Reason := "SYSTEM HALTED", LatencyMs := 0 }
  else if state.ForcedBuffering then
    { Buffering := true, Reason := "manual override", LatencyMs := state.AvgLatency }
  else if state.Threshold < state.SimulatedMs then
    { Buffering := true
      Reason := "simulated " ++ toString state.SimulatedMs ++ "ms"
      LatencyMs := state.SimulatedMs }
  else if state.Threshold < state.MaxLatency then
    { Buffering := true
      Reason := "latency " ++ toString state.MaxLatency ++ "ms > " ++ toString state.Threshold ++ "ms"
      LatencyMs := state.MaxLatency }
  else
    { Buffering := false, Reason := "healthy", LatencyMs := state.AvgLatency }

/-! ### Shared validators -/

/-- Priority validator `synthesis.ValidatePriority`: empty defaults to `"P1"`,
the three recognized tokens pass through, everything else errors. -/
def ValidatePriority (p : String) : Except String String :=
  if p = "" then .ok "P1"
  else if p = "P0" then .ok p
  else if p = "P1" then .ok p
  else if p = "P2" then .ok p
  else .error ("invalid priority: " ++ p ++ " (must be P0, P1, or P2)")

/-- Character class trimmed by Go's `strings.TrimSpace` (Unicode White_Space). -/
def goIsSpace (c : Char) : Bool :=
  c = ' ' || c = '\t' || c = '\n' || c = (Char.ofNat 0x0B) || c = (Char.ofNat 0x0C) ||
  c = '\r' || c = (Char.ofNat 0x85) || c = (Char.ofNat 0xA0) || c = (Char.ofNat 0x1680) ||
  (0x2000 ≤ c.toNat && c.toNat ≤ 0x200A) || c = (Char.ofNat 0x2028) ||
  c = (Char.ofNat 0x2029) || c = (Char.ofNat 0x202F) || c = (Char.ofNat 0x205F) ||
  c = (Char.ofNat 0x3000)

/-- Go `strings.TrimSpace` on the rune sequence of a string. -/
def trimSpace (l : List Char) : List Char :=
  ((l.dropWhile goIsSpace).reverse.dropWhile goIsSpace).reverse

/-- UTF-8 encoding of one scalar value, as a byte list. -/
def utf8Bytes (c : Char) : List Nat :=
  let n := c.toNat
  if n < 0x80 then [n]
  else if n < 0x800 then [0xC0 + n / 0x40, 0x80 + n % 0x40]
  else if n < 0x10000 then
    [0xE0 + n / 0x1000, 0x80 + n / 0x40 % 0x40, 0x80 + n % 0x40]
  else
    [0xF0 + n / 0x40000, 0x80 + n / 0x1000 % 0x40, 0x80 + n / 0x40 % 0x40, 0x80 + n % 0x40]

/-- UTF-8 encoding of a rune sequence, as a byte list.  Go strings are byte
sequences; `len(s)` and `s[:k]` in the source act on these bytes. -/
def utf8Encode : List Char → List Nat
  | [] => []
  | c :: l => utf8Bytes c ++ utf8Encode l

/-- Content validator `synthesis.ValidateThought`: rejects content that is
empty after trimming, silently truncates to 50000 bytes otherwise.  The
returned value is the stored content as its UTF-8 byte sequence, since the
source truncates by byte index (`content[:50000]`). -/
def ValidateThought (content : String) : Except String (List Nat) :=
  let trimmed := trimSpace content.data
  if trimmed = [] then .error "thought content cannot be empty"
  else
    let bs := utf8Encode content.data
    if 50000 < bs.length then .ok (bs.take 50000) else .ok bs

/-- Latency validator `synthesis.ValidateLatency`: clamps negatives to zero. -/
def ValidateLatency (ms : Int) : Int :=
  if ms < 0 then 0 else ms

/-! ### Latency tracker (`tracker.Tracker`) -/

/-- One latency observation: `tracker.Sample`. -/
structure Sample where
  Timestamp : Int
  LatencyMs : Int
deriving DecidableEq, Repr

/-- Rolling-window latency tracker: `tracker.Tracker`.  `maxSamples` is a Go
`int` that is positive after every constructor, modelled as `Nat`. -/
structure Tracker where
  samples : List Sample
  maxSamples : Nat
deriving DecidableEq, Repr

/-- Constructor `tracker.NewWithMax`: a non-positive requested capacity is
coerced up to 1. -/
def NewWithMax (max : Int) : Tracker :=
  { samples := [], maxSamples := if max ≤ 0 then 1 else max.toNat }

/-- Constructor `tracker.New` (default capacity 100). -/
def New : Tracker :=
  NewWithMax 100

/-- `tracker.Tracker.RecordWithTime`: clamp the latency at zero, append the
sample, drop the oldest sample if capacity is exceeded.  The Go method
always returns a `nil` error, modelled as the `Option String` component. -/
def RecordWithTime (t : Tracker) (latencyMs : Int) (ts : Int) : Tracker × Option String :=
  let l := if latencyMs < 0 then 0 else latencyMs
  let ss := t.samples ++ [{ Timestamp := ts, LatencyMs := l }]
  let ss := if t.maxSamples < ss.length then ss.drop 1 else ss
  ({ samples := ss, maxSamples := t.maxSamples }, none)

/-- Sequence of `RecordWithTime` calls; each input is `(timestamp, latency)`. -/
def recordAll (t : Tracker) (xs : List (Int × Int)) : Tracker :=
  xs.foldl (fun tr p => (RecordWithTime tr p.2 p.1).1) t

/-- The sample a `(timestamp, latency)` input is stored as (after clamping). -/
def clampSample (p : Int × Int) : Sample :=
  { Timestamp := p.1, LatencyMs := if p.2 < 0 then 0 else p.2 }

/-- `tracker.Tracker.Average`: mean of the in-window latencies, or the
fallback when none qualify.  `now` makes the source's `time.Now()` explicit;
the cutoff is `now - window` and a sample qualifies when its timestamp is
strictly after the cutoff.  Go's `int64` division truncates toward zero,
which is `Int.tdiv`. -/
def Average (t : Tracker) (now window fallback : Int) : Int :=
  let cutoff := now - window
  let sc := t.samples.foldl
    (fun (acc : Int × Nat) s =>
      if cutoff < s.Timestamp then (acc.1 + s.LatencyMs, acc.2 + 1) else acc)
    (0, 0)
  if sc.2 = 0 then fallback else Int.tdiv sc.1 (sc.2 : Int)

/-- `tracker.Tracker.Max`: maximum in-window latency, or the fallback when no
samples qualify (tracked via a `-1` sentinel exactly as in the source). -/
def TrackerMax (t : Tracker) (now window fallback : Int) : Int :=
  let cutoff := now - window
  let m := t.samples.foldl
    (fun (m : Int) s =>
      if cutoff < s.Timestamp then (if m < s.LatencyMs then s.LatencyMs else m) else m)
    (-1)
  if m < 0 then fallback else m

/-- `tracker.Tracker.Count`: number of retained samples. -/
def Count (t : Tracker) : Nat :=
  t.samples.length

/-- `tracker.Tracker.Clear`: drop all retained samples. -/
def Clear (t : Tracker) : Tracker :=
  { samples := [], maxSamples := t.maxSamples }

/-! ### Synthesis formatter (`synthesis.GeneratePrompt`) -/

/-- A buffered thought record: `db.Thought`. -/
structure Thought where
  ID : Int
  AgentID : String
  Channel : String
  Target : String
  Content : String
  Priority : String
  CreatedAt : String
  Status : String
deriving DecidableEq, Repr

/-- `synthesis.priorityOrder`: sort rank of a priority token; unrecognized
tokens rank like `"P1"`. -/
def priorityOrder (p : String) : Nat :=
  if p = "P0" then 0
  else if p = "P1" then 1
  else if p = "P2" then 2
  else 1

/-- Go's `<` on strings compares byte-wise; on valid UTF-8 this is exactly
lexicographic comparison of the scalar-value sequences. -/
def charsLt : List Char → List Char → Bool
  | [], [] => false
  | [], _ :: _ => true
  | _ :: _, [] => false
  | a :: as, b :: bs => if a < b then true else if b < a then false else charsLt as bs

/-- The sort comparator passed to `sort.Slice` in `GeneratePrompt`: priority
rank first, then creation timestamp. -/
def thoughtLess (a b : Thought) : Bool :=
  if priorityOrder a.Priority ≠ priorityOrder b.Priority then
    decide (priorityOrder a.Priority < priorityOrder b.Priority)
  else
    charsLt a.CreatedAt.data b.CreatedAt.data

/-- Non-strict counterpart of `thoughtLess`, the relation the sorted output
is ordered by: `a` may precede `b` iff `b` is not strictly less than `a`. -/
def thoughtLe (a b : Thought) : Prop :=
  thoughtLess b a = false

instance : DecidableRel thoughtLe :=
  fun a b => inferInstanceAs (Decidable (_ = false))

/-- The sort performed by `GeneratePrompt` on a copy of its input.  The
source calls Go's `sort.Slice` with `thoughtLess`; on the small slices this
development evaluates it is insertion sort, which `List.insertionSort` with
the non-strict relation reproduces element for element (ties keep input
order). -/
def sortThoughts (ts : List Thought) : List Thought :=
  ts.insertionSort thoughtLe

/-- Severity tag appended after the timestamp of a rendered line. -/
def priorityTag (p : String) : String :=
  if p = "P0" then " [CRITICAL]"
  else if p = "P2" then " [low]"
  else ""

/-- `strings.ReplaceAll` specialised to a single-character pattern. -/
def replaceAll1 (a : Char) (rep : List Char) : List Char → List Char
  | [] => []
  | c :: l => if c = a then rep ++ replaceAll1 a rep l else c :: replaceAll1 a rep l

/-- `strings.ReplaceAll` specialised to a two-character pattern: leftmost,
non-overlapping matches, scanning continues after each replacement. -/
def replaceAll2 (a b : Char) (rep : List Char) : List Char → List Char
  | [] => []
  | [c] => [c]
  | c :: d :: l =>
    if c = a ∧ d = b then rep ++ replaceAll2 a b rep l
    else c :: replaceAll2 a b rep (d :: l)

/-- `synthesis.escapeContent`: backslash, then double-quote, then newline
substitutions, in that order. -/
def escapeContent (s : String) : String :=
  ⟨replaceAll1 '\n' ['\\', 'n']
    (replaceAll1 '"' ['\\', '"']
      (replaceAll1 '\\' ['\\', '\\'] s.data))⟩

/-- Modelled from the spec: the inverse substitutions of `escapeContent`,
applied in reverse order (backslash-n to newline, then escaped quote to
quote, then double-backslash to backslash).  The repository has no unescape
function; this is the claim's own construction. -/
def unescapeSpec (s : String) : String :=
  ⟨replaceAll2 '\\' '\\' ['\\']
    (replaceAll2 '\\' '"' ['"']
      (replaceAll2 '\\' 'n' ['\n'] s.data))⟩

/-- One rendered backlog line: `"%d. [%s]%s \"%s\""` with the 1-based index,
creation timestamp, severity tag and escaped content. -/
def renderLine (idx : Nat) (t : Thought) : String :=
  toString (idx + 1) ++ ". [" ++ t.CreatedAt ++ "]" ++ priorityTag t.Priority ++
    " \"" ++ escapeContent t.Content ++ "\""

/-- The numbered lines of the sorted backlog, starting at display index 1. -/
def renderLines (idx : Nat) : List Thought → List String
  | [] => []
  | t :: ts => renderLine idx t :: renderLines (idx + 1) ts

/-- `synthesis.GeneratePrompt`: fixed notice for an empty backlog, otherwise
the sorted numbered lines, a count summary, an optional critical-count note
and fixed closing instructions. -/
def GeneratePrompt (thoughts : List Thought) : String :=
  if thoughts.length = 0 then "**SYSTEM: No buffered thoughts to synthesize.**"
  else
    let sorted := sortThoughts thoughts
    let lines := renderLines 0 sorted
    let p0Count := (sorted.filter (fun t => t.Priority = "P0")).length
    let criticalNote :=
      if 0 < p0Count then
        "\n\n**Note:** " ++ toString p0Count ++
          " CRITICAL thought(s) — preserve unless clearly obsolete."
      else ""
    let messageWord := if thoughts.length = 1 then "message" else "messages"
    "**SYSTEM: NETWORK RECOVERED**\n\nWhile congested, you drafted " ++
      toString thoughts.length ++ " " ++ messageWord ++ ":\n\n" ++
      String.intercalate "\n" lines ++ criticalNote ++
      "\n\n**TASK:** Review against current channel state.\n" ++
      "- Discard obsolete/superseded thoughts\n" ++
      "- Synthesize remaining into ONE coherent message\n" ++
      "- Do not apologize or mention delays"

/-- Sort key of a thought: the pair the comparator actually inspects. -/
def thoughtKey (t : Thought) : Nat × List Char :=
  (priorityOrder t.Priority, t.CreatedAt.data)

/-- Replace an unrecognized priority token by the Normal tier `"P1"`;
recognized tokens are left unchanged. -/
def normalizeUnrecognized (t : Thought) : Thought :=
  if t.Priority = "P0" ∨ t.Priority = "P1" ∨ t.Priority = "P2" then t
  else { t with Priority := "P1" }

/-- Whether a character sequence is free of a backslash immediately followed
by the letter `n` (the pattern on which the spec's sequential unescape
mis-fires). -/
def noBslashN : List Char → Bool
  | [] => true
  | [_] => true
  | c :: d :: l => !(c == '\\' && d == 'n') && noBslashN (d :: l)

/-- The escape token `escapeContent` emits for one character. -/
def escTok (c : Char) : List Char :=
  if c = '\\' then ['\\', '\\']
  else if c = '"' then ['\\', '"']
  else if c = '\n' then ['\\', 'n']
  else [c]

/-- Character-wise view of `escapeContent`'s output. -/
def escChars : List Char → List Char
  | [] => []
  | c :: l => escTok c ++ escChars l

/-- Per-character image after undoing the newline substitution. -/
def stage1Tok (c : Char) : List Char :=
  if c = '\\' then ['\\', '\\'] else if c = '"' then ['\\', '"'] else [c]

/-- Character-wise image after undoing the newline substitution. -/
def stage1Chars : List Char → List Char
  | [] => []
  | c :: l => stage1Tok c ++ stage1Chars l

/-- Per-character image after also undoing the quote substitution. -/
def stage2Tok (c : Char) : List Char :=
  if c = '\\' then ['\\', '\\'] else [c]

/-- Character-wise image after also undoing the quote substitution. -/
def stage2Chars : List Char → List Char
  | [] => []
  | c :: l => stage2Tok c ++ stage2Chars l

end AntiBeaver

namespace AntiBeaver

/-! ## Decision engine claims -/

/-- Claim C1 (counterexample): at the spec's own precedence vector
(halted, forced, simulated 99999, threshold 5000) the verdict buffers with
reported latency 0, but the reason is the literal `"SYSTEM HALTED"`, not the
claimed `"system halted"`. -/
theorem shouldBuffer_halted_reason_counterexample :
    ShouldBuffer ⟨100, 100, 5000, true, 99999, true⟩ =
      { Buffering := true, Reason := "SYSTEM HALTED", LatencyMs := 0 } ∧
    (ShouldBuffer ⟨100, 100, 5000, true, 99999, true⟩).Reason ≠ "system halted" := by
  decide

/-- Claim C1 (amended): for every snapshot with the halted flag set,
`ShouldBuffer` returns buffering, reason exactly `"SYSTEM HALTED"` and
reported latency 0, regardless of every other signal. -/
theorem shouldBuffer_halted_dominates (s : State) (h : s.Halted = true) :
    ShouldBuffer s = { Buffering := true, Reason := "SYSTEM HALTED", LatencyMs := 0 } := by
  simp [ShouldBuffer, h]

/-- Witness for the amended claim C1 at a concrete snapshot. -/
theorem shouldBuffer_halted_dominates_witness :
    ShouldBuffer ⟨100, 100, 5000, true, 99999, true⟩ =
      { Buffering := true, Reason := "SYSTEM HALTED", LatencyMs := 0 } :=
  shouldBuffer_halted_dominates ⟨100, 100, 5000, true, 99999, true⟩ rfl

/-- Claim C2: with no halt and no forced override, buffering fires exactly
when the simulated or the measured max latency strictly exceeds the
threshold; equality with the threshold does not buffer, threshold + 1
does. -/
theorem shouldBuffer_strict_threshold (s : State) (hh : s.Halted = false)
    (hf : s.ForcedBuffering = false) :
    ((ShouldBuffer s).Buffering = true ↔
      (s.Threshold < s.SimulatedMs ∨ s.Threshold < s.MaxLatency)) ∧
    (s.SimulatedMs ≤ s.Threshold → s.MaxLatency = s.Threshold →
      (ShouldBuffer s).Buffering = false) ∧
    (s.SimulatedMs ≤ s.Threshold → s.MaxLatency = s.Threshold + 1 →
      (ShouldBuffer s).Buffering = true) := by
  have hb : (ShouldBuffer s).Buffering =
      (decide (s.Threshold < s.SimulatedMs) || decide (s.Threshold < s.MaxLatency)) := by
    unfold ShouldBuffer
    rw [hh, hf]
    simp only [Bool.false_eq_true, if_false]
    split_ifs with h1 h2 <;> simp_all
  refine ⟨?_, ?_, ?_⟩
  · rw [hb]
    simp
  · intro hsim hmax
    rw [hb]
    simp only [Bool.or_eq_false_iff, decide_eq_false_iff_not, not_lt]
    omega
  · intro hsim hmax
    rw [hb]
    simp only [Bool.or_eq_true, decide_eq_true_eq]
    omega

/-- Witness for claim C2: the two boundary snapshots. -/
theorem shouldBuffer_strict_threshold_witness :
    (ShouldBuffer ⟨100, 5000, 5000, false, 0, false⟩).Buffering = false ∧
    (ShouldBuffer ⟨100, 5001, 5000, false, 0, false⟩).Buffering = true :=
  ⟨(shouldBuffer_strict_threshold ⟨100, 5000, 5000, false, 0, false⟩ rfl rfl).2.1
      (by decide) rfl,
    (shouldBuffer_strict_threshold ⟨100, 5001, 5000, false, 0, false⟩ rfl rfl).2.2
      (by decide) (by decide)⟩

/-! ## Validator claims -/

/-- Claim C8: the priority validator defaults the empty string to `"P1"`,
passes the three recognized tokens through unchanged, and rejects every
other token with the invalid-priority error. -/
theorem validatePriority_cases (p : String) :
    ValidatePriority "" = .ok "P1" ∧
    (p = "P0" ∨ p = "P1" ∨ p = "P2" → ValidatePriority p = .ok p) ∧
    (p ≠ "" → p ≠ "P0" → p ≠ "P1" → p ≠ "P2" →
      ValidatePriority p = .error ("invalid priority: " ++ p ++ " (must be P0, P1, or P2)")) := by
  refine ⟨rfl, ?_, ?_⟩
  · rintro (rfl | rfl | rfl) <;> rfl
  · intro h0 h1 h2 h3
    simp [ValidatePriority, h0, h1, h2, h3]

/-- Witness for claim C8 at the spec's own probe tokens. -/
theorem validatePriority_cases_witness :
    ValidatePriority "" = .ok "P1" ∧
    ValidatePriority "P0" = .ok "P0" ∧
    ValidatePriority "p0" = .error "invalid priority: p0 (must be P0, P1, or P2)" ∧
    ValidatePriority "P9" = .error "invalid priority: P9 (must be P0, P1, or P2)" :=
  ⟨(validatePriority_cases "").1,
    (validatePriority_cases "P0").2.1 (Or.inl rfl),
    (validatePriority_cases "p0").2.2 (by decide) (by decide) (by decide) (by decide),
    (validatePriority_cases "P9").2.2 (by decide) (by decide) (by decide) (by decide)⟩

/-- Elements surviving `dropWhile` on both ends are all of them iff every
element satisfies the predicate. -/
theorem trimSpace_eq_nil_iff (l : List Char) :
    trimSpace l = [] ↔ ∀ c ∈ l, goIsSpace c = true := by
  unfold trimSpace
  rw [List.reverse_eq_nil_iff, List.dropWhile_eq_nil_iff]
  constructor
  · intro h c hc
    rcases List.mem_append.mp (by rw [List.takeWhile_append_dropWhile (p := goIsSpace)]; exact hc) with
      hm | hm
    · exact List.mem_takeWhile_imp hm
    · exact h c (List.mem_reverse.mpr hm)
  · intro h c hc
    exact h c ((List.dropWhile_sublist goIsSpace).mem (List.mem_reverse.mp hc))

/-- Claim C9: content empty after trimming is rejected with the
empty-content error (and nothing else is); otherwise the original content is
returned, truncated to exactly 50000 bytes only when it is longer. -/
theorem validateThought_cases (content : String) :
    (ValidateThought content = .error "thought content cannot be empty" ↔
      trimSpace content.data = []) ∧
    (trimSpace content.data = [] ↔ ∀ c ∈ content.data, goIsSpace c = true) ∧
    (trimSpace content.data ≠ [] → (utf8Encode content.data).length ≤ 50000 →
      ValidateThought content = .ok (utf8Encode content.data)) ∧
    (trimSpace content.data ≠ [] → 50000 < (utf8Encode content.data).length →
      ValidateThought content = .ok ((utf8Encode content.data).take 50000) ∧
        ((utf8Encode content.data).take 50000).length = 50000) := by
  refine ⟨?_, trimSpace_eq_nil_iff content.data, ?_, ?_⟩
  · simp only [ValidateThought]
    split_ifs with h1 h2 <;> simp [h1]
  · intro h1 h2
    simp only [ValidateThought]
    rw [if_neg h1, if_neg (by omega)]
  · intro h1 h2
    refine ⟨?_, ?_⟩
    · simp only [ValidateThought]
      rw [if_neg h1, if_pos h2]
    · rw [List.length_take]
      omega

/-- Witness for claim C9: a kept, a rejected and a truncated content. -/
theorem validateThought_cases_witness :
    ValidateThought " hi" = .ok [32, 104, 105] ∧
    ValidateThought "  " = .error "thought content cannot be empty" :=
  ⟨(validateThought_cases " hi").2.2.1 (by decide) (by decide),
    (validateThought_cases "  ").1.mpr (by decide)⟩

/-! ## Tracker claims -/

/-- Claim C6: a negative latency is clamped to exactly zero by
`ValidateLatency` and by `RecordWithTime` (which stores the clamped sample
and never returns an error), so recording preserves non-negativity of every
stored sample. -/
theorem negativeLatency_clamped (ms : Int) (h : ms < 0) :
    ValidateLatency ms = 0 ∧
    (∀ (tr : Tracker) (ts : Int), 1 ≤ tr.maxSamples →
      (RecordWithTime tr ms ts).2 = none ∧
        (RecordWithTime tr ms ts).1.samples.getLast? =
          some { Timestamp := ts, LatencyMs := 0 }) ∧
    (∀ (tr : Tracker) (ms' ts : Int), (∀ s ∈ tr.samples, 0 ≤ s.LatencyMs) →
      ∀ s ∈ (RecordWithTime tr ms' ts).1.samples, 0 ≤ s.LatencyMs) := by
  refine ⟨by simp [ValidateLatency, h], ?_, ?_⟩
  · intro tr ts hm
    refine ⟨rfl, ?_⟩
    simp only [RecordWithTime, if_pos h]
    split_ifs with hlen
    · rw [List.length_append, List.length_singleton] at hlen
      rw [List.drop_append_of_le_length (by omega)]
      exact List.getLast?_concat _
    · exact List.getLast?_concat _
  · intro tr ms' ts hall s hs
    simp only [RecordWithTime] at hs
    generalize hval : (if ms' < 0 then (0 : Int) else ms') = v at hs
    have hv : 0 ≤ v := by
      rw [← hval]
      split_ifs <;> omega
    have hmem : s ∈ tr.samples ++ [(⟨ts, v⟩ : Sample)] := by
      split_ifs at hs with hlen
      · exact List.mem_of_mem_drop hs
      · exact hs
    rcases List.mem_append.mp hmem with hm | hm
    · exact hall s hm
    · simp only [List.mem_singleton] at hm
      subst hm
      exact hv

/-- Witness for claim C6 at latency -5 on a fresh capacity-1 tracker. -/
theorem negativeLatency_clamped_witness :
    ValidateLatency (-5) = 0 ∧
    (RecordWithTime (NewWithMax 1) (-5) 100).1.samples.getLast? =
      some { Timestamp := 100, LatencyMs := 0 } :=
  ⟨(negativeLatency_clamped (-5) (by decide)).1,
    ((negativeLatency_clamped (-5) (by decide)).2.1 (NewWithMax 1) 100 (by decide)).2⟩

end AntiBeaver

namespace AntiBeaver

/-- `recordAll` never changes the configured capacity. -/
theorem recordAll_maxSamples (xs : List (Int × Int)) : ∀ (tr : Tracker),
    (recordAll tr xs).maxSamples = tr.maxSamples := by
  induction xs with
  | nil => intro tr; rfl
  | cons x xs ih =>
    intro tr
    exact (ih _).trans rfl

/-- Retained samples after a run of records: everything recorded (clamped),
with the overflow beyond capacity dropped from the front, one oldest sample
per overflowing append. -/
theorem recordAll_samples (xs : List (Int × Int)) : ∀ (tr : Tracker),
    tr.samples.length ≤ tr.maxSamples →
    (recordAll tr xs).samples =
      (tr.samples ++ xs.map clampSample).drop
        (tr.samples.length + xs.length - tr.maxSamples) := by
  induction xs with
  | nil =>
    intro tr h
    simp [recordAll, Nat.sub_eq_zero_of_le h]
  | cons x xs ih =>
    intro tr h
    have hstep : recordAll tr (x :: xs) = recordAll
        { samples := if tr.maxSamples < (tr.samples ++ [clampSample x]).length
            then (tr.samples ++ [clampSample x]).drop 1
            else tr.samples ++ [clampSample x],
          maxSamples := tr.maxSamples } xs := rfl
    rw [hstep]
    split_ifs with hlen
    · rw [List.length_append, List.length_singleton] at hlen
      have hle : ((tr.samples ++ [clampSample x]).drop 1).length ≤ tr.maxSamples := by
        simp only [List.length_drop, List.length_append, List.length_singleton]
        omega
      rw [ih _ hle]
      simp only [List.length_drop, List.length_append, List.length_singleton,
        List.length_cons, List.length_nil]
      rw [← List.drop_append_of_le_length (by
        simp only [List.length_append, List.length_singleton, List.length_cons,
          List.length_nil]
        omega)]
      rw [List.drop_drop]
      simp only [List.append_assoc, List.singleton_append, List.map_cons, List.length_cons,
        List.length_nil]
      congr 1
      omega
    · rw [List.length_append, List.length_singleton] at hlen
      have hle : (tr.samples ++ [clampSample x]).length ≤ tr.maxSamples := by
        simp only [List.length_append, List.length_singleton]
        omega
      rw [ih _ hle]
      simp only [List.length_append, List.length_singleton, List.append_assoc,
        List.singleton_append, List.map_cons, List.length_cons, List.length_nil]
      congr 1
      omega

/-- Claim C5: a tracker of capacity K ≥ 1, after recording K + M samples
(M > 0), retains exactly K samples, and they are precisely the most recent
K recorded (clamped), i.e. eviction is strict FIFO. -/
theorem tracker_capacity_fifo (K : Int) (M : Nat) (xs : List (Int × Int))
    (hK : 1 ≤ K) (hM : 0 < M) (hlen : xs.length = K.toNat + M) :
    Count (recordAll (NewWithMax K) xs) = K.toNat ∧
    (recordAll (NewWithMax K) xs).samples = (xs.map clampSample).drop M := by
  have hnew : NewWithMax K = { samples := [], maxSamples := K.toNat } := by
    simp only [NewWithMax]
    rw [if_neg (by omega)]
  rw [hnew]
  have hs := recordAll_samples xs { samples := [], maxSamples := K.toNat } (by simp)
  simp only [List.nil_append, List.length_nil, Nat.zero_add, hlen] at hs
  have hdrop : K.toNat + M - K.toNat = M := by omega
  rw [hdrop] at hs
  refine ⟨?_, hs⟩
  unfold Count
  rw [hs, List.length_drop, List.length_map, hlen]
  omega

/-- Witness for claim C5: capacity 2, three samples recorded, the first is
evicted. -/
theorem tracker_capacity_fifo_witness :
    Count (recordAll (NewWithMax 2) [(1, 10), (2, 20), (3, 30)]) = 2 ∧
    (recordAll (NewWithMax 2) [(1, 10), (2, 20), (3, 30)]).samples =
      ([(1, 10), (2, 20), (3, 30)].map clampSample).drop 1 :=
  tracker_capacity_fifo 2 1 [(1, 10), (2, 20), (3, 30)] (by decide) (by decide) (by decide)

/-- The accumulating loop of `Average`, described by filter, sum and
length. -/
theorem average_foldl (cutoff : Int) (l : List Sample) : ∀ (sum : Int) (cnt : Nat),
    l.foldl
      (fun (acc : Int × Nat) s =>
        if cutoff < s.Timestamp then (acc.1 + s.LatencyMs, acc.2 + 1) else acc)
      (sum, cnt) =
    (sum + ((l.filter (fun s => decide (cutoff < s.Timestamp))).map Sample.LatencyMs).sum,
      cnt + (l.filter (fun s => decide (cutoff < s.Timestamp))).length) := by
  induction l with
  | nil => intro sum cnt; simp
  | cons s l ih =>
    intro sum cnt
    by_cases hc : cutoff < s.Timestamp
    · have hf : (s :: l).filter (fun s => decide (cutoff < s.Timestamp)) =
          s :: l.filter (fun s => decide (cutoff < s.Timestamp)) :=
        List.filter_cons_of_pos (by simpa using hc)
      rw [List.foldl_cons, if_pos hc, ih, hf]
      simp only [List.map_cons, List.sum_cons, List.length_cons, Prod.mk.injEq]
      exact ⟨by omega, by omega⟩
    · have hf : (s :: l).filter (fun s => decide (cutoff < s.Timestamp)) =
          l.filter (fun s => decide (cutoff < s.Timestamp)) :=
        List.filter_cons_of_neg (by simpa using hc)
      rw [List.foldl_cons, if_neg hc, ih, hf]

/-- Claim C7: `Average` returns the fallback unchanged exactly when no
retained sample's timestamp lies strictly after `now - window`; otherwise it
returns the truncating-toward-zero integer mean of precisely the qualifying
samples' magnitudes. -/
theorem average_mean_or_fallback (t : Tracker) (now window fallback : Int) :
    (t.samples.filter (fun s => decide (now - window < s.Timestamp)) = [] →
      Average t now window fallback = fallback) ∧
    (t.samples.filter (fun s => decide (now - window < s.Timestamp)) ≠ [] →
      Average t now window fallback =
        Int.tdiv
          ((t.samples.filter (fun s => decide (now - window < s.Timestamp))).map
              Sample.LatencyMs).sum
          ((t.samples.filter (fun s => decide (now - window < s.Timestamp))).length : Int)) := by
  have havg : Average t now window fallback =
      (if (t.samples.filter (fun s => decide (now - window < s.Timestamp))).length = 0 then
        fallback
      else
        Int.tdiv
          ((t.samples.filter (fun s => decide (now - window < s.Timestamp))).map
              Sample.LatencyMs).sum
          ((t.samples.filter (fun s => decide (now - window < s.Timestamp))).length : Int)) := by
    simp only [Average, average_foldl (now - window) t.samples 0 0, Int.zero_add, Nat.zero_add]
  constructor
  · intro hnil
    rw [havg, if_pos (by rw [hnil]; rfl)]
  · intro hne
    rw [havg, if_neg (by
      intro hzero
      exact hne (List.length_eq_zero.mp hzero))]

/-- Witness for claim C7: one in-window sample yields its mean, an empty
tracker yields the fallback. -/
theorem average_mean_or_fallback_witness :
    Average ⟨[⟨10, 4⟩, ⟨0, 9⟩], 5⟩ 10 5 7 = Int.tdiv 4 1 ∧
    Average ⟨[], 5⟩ 10 5 7 = 7 :=
  ⟨by simpa using (average_mean_or_fallback ⟨[⟨10, 4⟩, ⟨0, 9⟩], 5⟩ 10 5 7).2 (by decide),
    (average_mean_or_fallback ⟨[], 5⟩ 10 5 7).1 rfl⟩

end AntiBeaver

namespace AntiBeaver

/-! ## Escape round-trip (claim C4) -/

/-- A single-character replacement distributes over concatenation. -/
theorem replaceAll1_append (a : Char) (rep l m : List Char) :
    replaceAll1 a rep (l ++ m) = replaceAll1 a rep l ++ replaceAll1 a rep m := by
  induction l with
  | nil => rfl
  | cons c l ih =>
    simp only [List.cons_append, replaceAll1]
    split_ifs <;> simp [ih]

/-- `escapeContent` acts character by character, emitting `escTok`. -/
theorem escChars_eq (l : List Char) :
    replaceAll1 '\n' ['\\', 'n']
      (replaceAll1 '"' ['\\', '"'] (replaceAll1 '\\' ['\\', '\\'] l)) = escChars l := by
  induction l with
  | nil => rfl
  | cons c l ih =>
    by_cases h1 : c = '\\'
    · subst h1
      simp [replaceAll1, replaceAll1_append, escChars, escTok, ih]
    · by_cases h2 : c = '"'
      · subst h2
        simp [replaceAll1, replaceAll1_append, escChars, escTok, ih]
      · by_cases h3 : c = '\n'
        · subst h3
          simp [replaceAll1, replaceAll1_append, escChars, escTok, ih]
        · simp [replaceAll1, replaceAll1_append, escChars, escTok, ih, h1, h2, h3]

/-- A two-character replacement skips a head that cannot start a match. -/
theorem replaceAll2_cons_of_head (a b : Char) (rep : List Char) (c : Char) (l : List Char)
    (h : ¬(c = a ∧ l.head? = some b)) :
    replaceAll2 a b rep (c :: l) = c :: replaceAll2 a b rep l := by
  cases l with
  | nil => rfl
  | cons d l' =>
    simp only [List.head?_cons, Option.some.injEq] at h
    simp only [replaceAll2, if_neg h]

/-- A two-character replacement fires on a match at the head. -/
theorem replaceAll2_cons2 (a b : Char) (rep l : List Char) :
    replaceAll2 a b rep (a :: b :: l) = rep ++ replaceAll2 a b rep l := by
  simp [replaceAll2]

/-- The escaped stream never starts with a plain `n` unless the source
did. -/
theorem escChars_head (t : List Char) (h : t.head? ≠ some 'n') :
    (escChars t).head? ≠ some 'n' := by
  cases t with
  | nil => simp [escChars]
  | cons c t' =>
    simp only [List.head?_cons, Option.some.injEq] at h
    by_cases h1 : c = '\\'
    · subst h1; simp [escChars, escTok]
    · by_cases h2 : c = '"'
      · subst h2; simp [escChars, escTok]
      · by_cases h3 : c = '\n'
        · subst h3; simp [escChars, escTok]
        · simp [escChars, escTok, h1, h2, h3, h]

/-- After undoing the newline substitution the stream never starts with a
bare quote. -/
theorem stage1Chars_head (t : List Char) : (stage1Chars t).head? ≠ some '"' := by
  cases t with
  | nil => simp [stage1Chars]
  | cons c t' =>
    by_cases h1 : c = '\\'
    · subst h1; simp [stage1Chars, stage1Tok]
    · by_cases h2 : c = '"'
      · subst h2; simp [stage1Chars, stage1Tok]
      · simp [stage1Chars, stage1Tok, h1, h2]

/-- Tail of the no-backslash-n property. -/
theorem noBslashN_tail (c : Char) (t : List Char) (h : noBslashN (c :: t) = true) :
    noBslashN t = true := by
  cases t with
  | nil => rfl
  | cons d t' =>
    simp only [noBslashN, Bool.and_eq_true] at h
    exact h.2

/-- After a backslash, the no-backslash-n property forbids a following
plain `n`. -/
theorem noBslashN_head (t : List Char) (h : noBslashN ('\\' :: t) = true) :
    t.head? ≠ some 'n' := by
  cases t with
  | nil => simp
  | cons d t' =>
    simp only [noBslashN, Bool.and_eq_true, Bool.not_eq_true'] at h
    have hd := h.1
    simp only [beq_self_eq_true, Bool.true_and, beq_eq_false_iff_ne] at hd
    simp [hd]

/-- Undoing the newline substitution on the escaped stream recovers the
stage-1 image, provided the source had no backslash-then-n pair. -/
theorem stage1_eq (l : List Char) (h : noBslashN l = true) :
    replaceAll2 '\\' 'n' ['\n'] (escChars l) = stage1Chars l := by
  induction l with
  | nil => rfl
  | cons c t ih =>
    have ht := noBslashN_tail c t h
    by_cases h1 : c = '\\'
    · subst h1
      have hhd : (escChars t).head? ≠ some 'n' := escChars_head t (noBslashN_head t h)
      have e1 : escChars ('\\' :: t) = '\\' :: '\\' :: escChars t := by
        simp [escChars, escTok]
      rw [e1, replaceAll2_cons_of_head _ _ _ _ _ (by simp),
        replaceAll2_cons_of_head _ _ _ _ _ (by simpa using hhd), ih ht]
      simp [stage1Chars, stage1Tok]
    · by_cases h2 : c = '"'
      · subst h2
        have e1 : escChars ('"' :: t) = '\\' :: '"' :: escChars t := by
          simp [escChars, escTok]
        rw [e1, replaceAll2_cons_of_head _ _ _ _ _ (by simp),
          replaceAll2_cons_of_head _ _ _ _ _ (by simp), ih ht]
        simp [stage1Chars, stage1Tok]
      · by_cases h3 : c = '\n'
        · subst h3
          have e1 : escChars ('\n' :: t) = '\\' :: 'n' :: escChars t := by
            simp [escChars, escTok]
          rw [e1, replaceAll2_cons2, ih ht]
          simp [stage1Chars, stage1Tok]
        · have e1 : escChars (c :: t) = c :: escChars t := by
            simp [escChars, escTok, h1, h2, h3]
          rw [e1, replaceAll2_cons_of_head _ _ _ _ _ (by simp [h1]), ih ht]
          simp [stage1Chars, stage1Tok, h1, h2, h3]

/-- Undoing the quote substitution on the stage-1 image recovers the
stage-2 image. -/
theorem stage2_eq (l : List Char) :
    replaceAll2 '\\' '"' ['"'] (stage1Chars l) = stage2Chars l := by
  induction l with
  | nil => rfl
  | cons c t ih =>
    by_cases h1 : c = '\\'
    · subst h1
      have e1 : stage1Chars ('\\' :: t) = '\\' :: '\\' :: stage1Chars t := by
        simp [stage1Chars, stage1Tok]
      rw [e1, replaceAll2_cons_of_head _ _ _ _ _ (by simp),
        replaceAll2_cons_of_head _ _ _ _ _ (by simpa using stage1Chars_head t), ih]
      simp [stage2Chars, stage2Tok]
    · by_cases h2 : c = '"'
      · subst h2
        have e1 : stage1Chars ('"' :: t) = '\\' :: '"' :: stage1Chars t := by
          simp [stage1Chars, stage1Tok]
        rw [e1, replaceAll2_cons2, ih]
        simp [stage2Chars, stage2Tok]
      · have e1 : stage1Chars (c :: t) = c :: stage1Chars t := by
          simp [stage1Chars, stage1Tok, h1, h2]
        rw [e1, replaceAll2_cons_of_head _ _ _ _ _ (by simp [h1]), ih]
        simp [stage2Chars, stage2Tok, h1]

/-- Undoing the backslash substitution on the stage-2 image recovers the
original characters. -/
theorem stage3_eq (l : List Char) :
    replaceAll2 '\\' '\\' ['\\'] (stage2Chars l) = l := by
  induction l with
  | nil => rfl
  | cons c t ih =>
    by_cases h1 : c = '\\'
    · subst h1
      have e1 : stage2Chars ('\\' :: t) = '\\' :: '\\' :: stage2Chars t := by
        simp [stage2Chars, stage2Tok]
      rw [e1, replaceAll2_cons2, ih]
      rfl
    · have e1 : stage2Chars (c :: t) = c :: stage2Chars t := by
        simp [stage2Chars, stage2Tok, h1]
      rw [e1, replaceAll2_cons_of_head _ _ _ _ _ (by simp [h1]), ih]

/-- Claim C4 (counterexample): for the content quote,newline,backslash,`n`
(which contains a double-quote, a backslash and a newline) the spec's
reversed substitutions do not reconstruct the original: the escaped
backslash followed by the plain `n` is mistaken for an escaped newline. -/
theorem escapeContent_roundtrip_counterexample :
    ('"' ∈ (⟨['"', '\n', '\\', 'n']⟩ : String).data ∧
      '\\' ∈ (⟨['"', '\n', '\\', 'n']⟩ : String).data ∧
      '\n' ∈ (⟨['"', '\n', '\\', 'n']⟩ : String).data) ∧
    unescapeSpec (escapeContent ⟨['"', '\n', '\\', 'n']⟩) ≠ ⟨['"', '\n', '\\', 'n']⟩ := by
  decide

/-- Claim C4 (amended): for every content containing a double-quote, a
backslash and a newline, in which no backslash is immediately followed by
the letter `n`, applying `escapeContent` and then the three inverse
substitutions in reverse order reconstructs the content exactly. -/
theorem escapeContent_roundtrip (s : String) (hq : '"' ∈ s.data) (hb : '\\' ∈ s.data)
    (hn : '\n' ∈ s.data) (hfree : noBslashN s.data = true) :
    unescapeSpec (escapeContent s) = s := by
  have hdata : (unescapeSpec (escapeContent s)).data = s.data := by
    show replaceAll2 '\\' '\\' ['\\'] (replaceAll2 '\\' '"' ['"']
        (replaceAll2 '\\' 'n' ['\n'] (escapeContent s).data)) = s.data
    rw [show (escapeContent s).data = escChars s.data from escChars_eq s.data]
    rw [stage1_eq s.data hfree, stage2_eq s.data, stage3_eq s.data]
  cases s with
  | mk data => exact congrArg String.mk hdata

/-- Witness for the amended claim C4 at a concrete content. -/
theorem escapeContent_roundtrip_witness :
    unescapeSpec (escapeContent ⟨['"', '\n', '\\', 'x']⟩) = ⟨['"', '\n', '\\', 'x']⟩ :=
  escapeContent_roundtrip ⟨['"', '\n', '\\', 'x']⟩ (by decide) (by decide) (by decide) (by decide)

end AntiBeaver

namespace AntiBeaver

/-! ## Sort order machinery (claims C3 and C10) -/

/-- Head comparison view of the byte-wise string order. -/
theorem charsLt_cons_iff (x y : Char) (as bs : List Char) :
    charsLt (x :: as) (y :: bs) = true ↔
      (x < y ∨ (x = y ∧ charsLt as bs = true)) := by
  by_cases h1 : x < y
  · simp [charsLt, h1]
  · by_cases h2 : y < x
    · have hne : x ≠ y := by
        intro he
        subst he
        exact lt_irrefl x h2
      simp [charsLt, h1, h2, hne]
    · have heq : x = y := le_antisymm (not_lt.mp h2) (not_lt.mp h1)
      simp [charsLt, h1, h2, heq]

/-- The byte-wise string order is asymmetric. -/
theorem charsLt_asymm : ∀ (a b : List Char),
    charsLt a b = true → charsLt b a = true → False := by
  intro a
  induction a with
  | nil =>
    intro b h1 h2
    cases b with
    | nil => simp [charsLt] at h1
    | cons y bs => simp [charsLt] at h2
  | cons x as ih =>
    intro b h1 h2
    cases b with
    | nil => simp [charsLt] at h1
    | cons y bs =>
      rw [charsLt_cons_iff] at h1 h2
      rcases h1 with h1 | ⟨he1, hr1⟩ <;> rcases h2 with h2 | ⟨he2, hr2⟩
      · exact lt_asymm h1 h2
      · subst he2; exact lt_irrefl _ h1
      · subst he1; exact lt_irrefl _ h2
      · exact ih bs hr1 hr2

/-- Two strings neither of which is below the other are equal. -/
theorem charsLt_not_not_eq : ∀ (a b : List Char),
    charsLt a b = false → charsLt b a = false → a = b := by
  intro a
  induction a with
  | nil =>
    intro b h1 h2
    cases b with
    | nil => rfl
    | cons y bs => simp [charsLt] at h1
  | cons x as ih =>
    intro b h1 h2
    cases b with
    | nil => simp [charsLt] at h2
    | cons y bs =>
      have h1' := charsLt_cons_iff x y as bs
      rw [h1] at h1'
      simp only [Bool.false_eq_true, false_iff, not_or, not_and] at h1'
      have h2' := charsLt_cons_iff y x bs as
      rw [h2] at h2'
      simp only [Bool.false_eq_true, false_iff, not_or, not_and] at h2'
      have heq : x = y := le_antisymm (not_lt.mp h2'.1) (not_lt.mp h1'.1)
      have hr := ih bs (by
          have := h1'.2 heq
          revert this
          cases charsLt as bs <;> simp)
        (by
          have := h2'.2 heq.symm
          revert this
          cases charsLt bs as <;> simp)
      rw [heq, hr]

/-- The byte-wise string order is transitive. -/
theorem charsLt_trans : ∀ (a b c : List Char),
    charsLt a b = true → charsLt b c = true → charsLt a c = true := by
  intro a
  induction a with
  | nil =>
    intro b c h1 h2
    cases b with
    | nil => simp [charsLt] at h1
    | cons y bs =>
      cases c with
      | nil => simp [charsLt] at h2
      | cons z cs => simp [charsLt]
  | cons x as ih =>
    intro b c h1 h2
    cases b with
    | nil => simp [charsLt] at h1
    | cons y bs =>
      cases c with
      | nil => simp [charsLt] at h2
      | cons z cs =>
        rw [charsLt_cons_iff] at h1 h2 ⊢
        rcases h1 with h1 | ⟨he1, hr1⟩ <;> rcases h2 with h2 | ⟨he2, hr2⟩
        · exact Or.inl (lt_trans h1 h2)
        · exact Or.inl (he2 ▸ h1)
        · exact Or.inl (he1 ▸ h2)
        · exact Or.inr ⟨he1.trans he2, ih bs cs hr1 hr2⟩

/-- The comparator, spelled out as a lexicographic condition on the sort
key. -/
theorem thoughtLess_iff (a b : Thought) :
    thoughtLess a b = true ↔
      (priorityOrder a.Priority < priorityOrder b.Priority ∨
        (priorityOrder a.Priority = priorityOrder b.Priority ∧
          charsLt a.CreatedAt.data b.CreatedAt.data = true)) := by
  unfold thoughtLess
  by_cases h : priorityOrder a.Priority = priorityOrder b.Priority
  · simp [h]
  · simp [h]

/-- Thoughts incomparable in both directions share their sort key. -/
theorem thoughtLess_key_eq (a b : Thought) (h1 : thoughtLess a b = false)
    (h2 : thoughtLess b a = false) : thoughtKey a = thoughtKey b := by
  have hi1 := thoughtLess_iff a b
  rw [h1] at hi1
  simp only [Bool.false_eq_true, false_iff, not_or, not_and] at hi1
  have hi2 := thoughtLess_iff b a
  rw [h2] at hi2
  simp only [Bool.false_eq_true, false_iff, not_or, not_and] at hi2
  have hp : priorityOrder a.Priority = priorityOrder b.Priority :=
    le_antisymm (not_lt.mp hi2.1) (not_lt.mp hi1.1)
  have hc : charsLt a.CreatedAt.data b.CreatedAt.data = false := by
    have := hi1.2 hp
    revert this
    cases charsLt a.CreatedAt.data b.CreatedAt.data <;> simp
  have hc' : charsLt b.CreatedAt.data a.CreatedAt.data = false := by
    have := hi2.2 hp.symm
    revert this
    cases charsLt b.CreatedAt.data a.CreatedAt.data <;> simp
  have hdata := charsLt_not_not_eq a.CreatedAt.data b.CreatedAt.data hc hc'
  unfold thoughtKey
  rw [hp, hdata]

/-- The comparator only inspects the sort key. -/
theorem thoughtLess_congr (a b a' b' : Thought) (ha : thoughtKey a = thoughtKey a')
    (hb : thoughtKey b = thoughtKey b') : thoughtLess a b = thoughtLess a' b' := by
  unfold thoughtKey at ha hb
  have ha1 : priorityOrder a.Priority = priorityOrder a'.Priority := congrArg Prod.fst ha
  have ha2 : a.CreatedAt.data = a'.CreatedAt.data := congrArg Prod.snd ha
  have hb1 : priorityOrder b.Priority = priorityOrder b'.Priority := congrArg Prod.fst hb
  have hb2 : b.CreatedAt.data = b'.CreatedAt.data := congrArg Prod.snd hb
  unfold thoughtLess
  rw [ha1, ha2, hb1, hb2]

/-- The comparator is asymmetric. -/
theorem thoughtLess_asymm (a b : Thought) (h1 : thoughtLess a b = true)
    (h2 : thoughtLess b a = true) : False := by
  rw [thoughtLess_iff] at h1 h2
  rcases h1 with h1 | ⟨he1, hr1⟩ <;> rcases h2 with h2 | ⟨he2, hr2⟩
  · omega
  · omega
  · omega
  · exact charsLt_asymm _ _ hr1 hr2

/-- The comparator is transitive. -/
theorem thoughtLess_trans (a b c : Thought) (h1 : thoughtLess a b = true)
    (h2 : thoughtLess b c = true) : thoughtLess a c = true := by
  rw [thoughtLess_iff] at h1 h2 ⊢
  rcases h1 with h1 | ⟨he1, hr1⟩ <;> rcases h2 with h2 | ⟨he2, hr2⟩
  · exact Or.inl (by omega)
  · exact Or.inl (by omega)
  · exact Or.inl (by omega)
  · exact Or.inr ⟨he1.trans he2, charsLt_trans _ _ _ hr1 hr2⟩

instance : IsTotal Thought thoughtLe where
  total a b := by
    unfold thoughtLe
    by_cases h1 : thoughtLess b a = true
    · by_cases h2 : thoughtLess a b = true
      · exact (thoughtLess_asymm a b h2 h1).elim
      · exact Or.inr (Bool.eq_false_iff.mpr h2)
    · exact Or.inl (Bool.eq_false_iff.mpr h1)

instance : IsTrans Thought thoughtLe where
  trans a b c hab hbc := by
    unfold thoughtLe at hab hbc ⊢
    by_contra hca
    have hca' : thoughtLess c a = true := by
      revert hca
      cases thoughtLess c a <;> simp
    by_cases h1 : thoughtLess a b = true
    · by_cases h2 : thoughtLess b c = true
      · exact thoughtLess_asymm a c (thoughtLess_trans a b c h1 h2) hca'
      · have hk := thoughtLess_key_eq b c (Bool.eq_false_iff.mpr h2) hbc
        have hcast := thoughtLess_congr c a b a hk.symm rfl
        rw [hcast, hab] at hca'
        cases hca'
    · have hk := thoughtLess_key_eq a b (Bool.eq_false_iff.mpr h1) hab
      by_cases h2 : thoughtLess b c = true
      · have hcast := thoughtLess_congr c a c b rfl hk
        have hcb : thoughtLess c b = true := hcast ▸ hca'
        exact thoughtLess_asymm b c h2 hcb
      · have hk2 := thoughtLess_key_eq b c (Bool.eq_false_iff.mpr h2) hbc
        have hcast := thoughtLess_congr c a b a hk2.symm rfl
        rw [hcast, hab] at hca'
        cases hca'

/-- Two sorted lists that are permutations of each other and whose elements
have pairwise distinct sort keys are equal. -/
theorem sorted_perm_eq_keys : ∀ (l1 l2 : List Thought), l1.Perm l2 →
    l1.Sorted thoughtLe → l2.Sorted thoughtLe →
    l1.Pairwise (fun a b => thoughtKey a ≠ thoughtKey b) → l1 = l2 := by
  intro l1
  induction l1 with
  | nil =>
    intro l2 hp _ _ _
    have hl := hp.length_eq
    simp only [List.length_nil] at hl
    exact (List.eq_nil_of_length_eq_zero hl.symm).symm
  | cons a t1 ih =>
    intro l2 hp hs1 hs2 hpw
    cases l2 with
    | nil =>
      have hl := hp.length_eq
      simp at hl
    | cons b t2 =>
      by_cases hab : a = b
      · subst hab
        rw [ih t2 hp.cons_inv (List.sorted_cons.mp hs1).2 (List.sorted_cons.mp hs2).2
          (List.pairwise_cons.mp hpw).2]
      · exfalso
        have hbmem : b ∈ t1 := by
          rcases List.mem_cons.mp (hp.mem_iff.mpr (List.mem_cons_self b t2)) with hm | hm
          · exact absurd hm.symm hab
          · exact hm
        have hamem : a ∈ t2 := by
          rcases List.mem_cons.mp (hp.mem_iff.mp (List.mem_cons_self a t1)) with hm | hm
          · exact absurd hm hab
          · exact hm
        have h1 : thoughtLe a b := (List.sorted_cons.mp hs1).1 b hbmem
        have h2 : thoughtLe b a := (List.sorted_cons.mp hs2).1 a hamem
        exact (List.pairwise_cons.mp hpw).1 b hbmem (thoughtLess_key_eq a b h2 h1)

end AntiBeaver

namespace AntiBeaver

/-- Claim C3 (counterexample): two pending thoughts with equal priority and
equal creation timestamp but different content; permuting them permutes the
rendered lines, so the output is not order-invariant. -/
theorem generatePrompt_order_counterexample :
    List.Perm
      [(⟨1, "a", "c", "t", "x", "P1", "T1", "pending"⟩ : Thought),
        ⟨2, "a", "c", "t", "y", "P1", "T1", "pending"⟩]
      [⟨2, "a", "c", "t", "y", "P1", "T1", "pending"⟩,
        ⟨1, "a", "c", "t", "x", "P1", "T1", "pending"⟩] ∧
    GeneratePrompt
        [⟨1, "a", "c", "t", "x", "P1", "T1", "pending"⟩,
          ⟨2, "a", "c", "t", "y", "P1", "T1", "pending"⟩] ≠
      GeneratePrompt
        [⟨2, "a", "c", "t", "y", "P1", "T1", "pending"⟩,
          ⟨1, "a", "c", "t", "x", "P1", "T1", "pending"⟩] :=
  ⟨List.Perm.swap _ _ _, by decide⟩

/-- Claim C3 (amended): permuting the input collection leaves the rendered
prompt byte-identical, provided no two items share both priority rank and
creation timestamp; with such ties the output may depend on input order. -/
theorem generatePrompt_perm_invariant (ts1 ts2 : List Thought) (hperm : ts1.Perm ts2)
    (hkeys : ts1.Pairwise fun a b => thoughtKey a ≠ thoughtKey b) :
    GeneratePrompt ts1 = GeneratePrompt ts2 := by
  have hlen := hperm.length_eq
  have hsort : sortThoughts ts1 = sortThoughts ts2 := by
    apply sorted_perm_eq_keys
    · exact ((List.perm_insertionSort thoughtLe ts1).trans hperm).trans
        (List.perm_insertionSort thoughtLe ts2).symm
    · exact List.sorted_insertionSort thoughtLe ts1
    · exact List.sorted_insertionSort thoughtLe ts2
    · exact ((List.perm_insertionSort thoughtLe ts1).pairwise_iff
        (fun h => Ne.symm h)).mpr hkeys
  unfold GeneratePrompt
  rw [hlen, hsort]

/-- Witness for the amended claim C3: two key-distinct thoughts swapped. -/
theorem generatePrompt_perm_invariant_witness :
    GeneratePrompt
        [⟨1, "a", "c", "t", "x", "P1", "T1", "pending"⟩,
          ⟨2, "a", "c", "t", "y", "P0", "T2", "pending"⟩] =
      GeneratePrompt
        [⟨2, "a", "c", "t", "y", "P0", "T2", "pending"⟩,
          ⟨1, "a", "c", "t", "x", "P1", "T1", "pending"⟩] :=
  generatePrompt_perm_invariant _ _ (List.Perm.swap _ _ _) (by decide)

/-- Normalizing an unrecognized priority keeps the sort key. -/
theorem thoughtKey_normalize (t : Thought) :
    thoughtKey (normalizeUnrecognized t) = thoughtKey t := by
  unfold normalizeUnrecognized
  split_ifs with h
  · rfl
  · push_neg at h
    simp [thoughtKey, priorityOrder, h.1, h.2.1, h.2.2]

/-- Normalizing an unrecognized priority keeps the severity tag. -/
theorem priorityTag_normalize (t : Thought) :
    priorityTag (normalizeUnrecognized t).Priority = priorityTag t.Priority := by
  unfold normalizeUnrecognized
  split_ifs with h
  · rfl
  · push_neg at h
    simp [priorityTag, h.1, h.2.2]

/-- Normalizing an unrecognized priority keeps the critical flag. -/
theorem priorityP0_iff (t : Thought) :
    (normalizeUnrecognized t).Priority = "P0" ↔ t.Priority = "P0" := by
  unfold normalizeUnrecognized
  split_ifs with h
  · exact Iff.rfl
  · push_neg at h
    constructor
    · intro hc
      simp at hc
    · intro hc
      exact absurd hc h.1

/-- Normalizing an unrecognized priority keeps the rendered line. -/
theorem renderLine_normalize (i : Nat) (t : Thought) :
    renderLine i (normalizeUnrecognized t) = renderLine i t := by
  have hc : (normalizeUnrecognized t).CreatedAt = t.CreatedAt := by
    unfold normalizeUnrecognized
    split_ifs <;> rfl
  have hct : (normalizeUnrecognized t).Content = t.Content := by
    unfold normalizeUnrecognized
    split_ifs <;> rfl
  unfold renderLine
  rw [priorityTag_normalize, hc, hct]

/-- Normalizing unrecognized priorities keeps every rendered line. -/
theorem renderLines_normalize (l : List Thought) : ∀ (i : Nat),
    renderLines i (l.map normalizeUnrecognized) = renderLines i l := by
  induction l with
  | nil => intro i; rfl
  | cons t l ih =>
    intro i
    simp only [List.map_cons, renderLines, renderLine_normalize, ih]

/-- The sort commutes with normalizing unrecognized priorities, because the
comparator only inspects the sort key, which normalizing keeps. -/
theorem sortThoughts_map_normalize (ts : List Thought) :
    sortThoughts (ts.map normalizeUnrecognized) =
      (sortThoughts ts).map normalizeUnrecognized := by
  unfold sortThoughts
  refine (List.map_insertionSort thoughtLe thoughtLe normalizeUnrecognized ts ?_).symm
  intro a _ b _
  unfold thoughtLe
  rw [thoughtLess_congr b a (normalizeUnrecognized b) (normalizeUnrecognized a)
    (thoughtKey_normalize b).symm (thoughtKey_normalize a).symm]

/-- Normalizing unrecognized priorities keeps the critical count. -/
theorem p0Filter_normalize (l : List Thought) :
    ((l.map normalizeUnrecognized).filter (fun t => t.Priority = "P0")).length =
      (l.filter (fun t => t.Priority = "P0")).length := by
  induction l with
  | nil => rfl
  | cons t l ih =>
    by_cases h : t.Priority = "P0"
    · have hn : (normalizeUnrecognized t).Priority = "P0" := (priorityP0_iff t).mpr h
      simp [List.filter_cons, h, hn, ih]
    · have hn : ¬(normalizeUnrecognized t).Priority = "P0" := fun hc => h ((priorityP0_iff t).mp hc)
      simp [List.filter_cons, h, hn, ih]

/-- Claim C10: an unrecognized priority token is never rejected by the
formatter: it ranks exactly like the Normal tier `"P1"`, carries no severity
tag, and replacing every unrecognized token by `"P1"` leaves the rendered
prompt byte-identical. -/
theorem generatePrompt_unrecognized_normal (p : String) (h0 : p ≠ "P0") (h1 : p ≠ "P1")
    (h2 : p ≠ "P2") :
    priorityOrder p = priorityOrder "P1" ∧ priorityTag p = "" ∧
    ∀ ts : List Thought, GeneratePrompt (ts.map normalizeUnrecognized) = GeneratePrompt ts := by
  refine ⟨by simp [priorityOrder, h0, h1, h2], by simp [priorityTag, h0, h2], ?_⟩
  intro ts
  unfold GeneratePrompt
  simp only [List.length_map]
  rw [sortThoughts_map_normalize, renderLines_normalize, p0Filter_normalize]

/-- Witness for claim C10 at the unrecognized token `"urgent"`. -/
theorem generatePrompt_unrecognized_normal_witness :
    priorityOrder "urgent" = priorityOrder "P1" ∧
    GeneratePrompt
        ([⟨1, "a", "c", "t", "x", "urgent", "T1", "pending"⟩].map normalizeUnrecognized) =
      GeneratePrompt [⟨1, "a", "c", "t", "x", "urgent", "T1", "pending"⟩] :=
  ⟨(generatePrompt_unrecognized_normal "urgent" (by decide) (by decide) (by decide)).1,
    (generatePrompt_unrecognized_normal "urgent" (by decide) (by decide) (by decide)).2.2
      [⟨1, "a", "c", "t", "x", "urgent", "T1", "pending"⟩]⟩

end AntiBeaver
